import Mathlib

/-!
Verification development for the ADESA 80 club-website scraper repository.

The repository contains three scraper variants:
* `src/scripts/scraper.ts` (TypeScript, single JSON file) — fetch with
  Puppeteer fallback, `parsearPartidos`, `determinarEstado`, `hanCambiado`,
  `guardarPartidos`, `main`;
* `src/lib/scraper.js` (axios + cheerio library) — `fetchWithRetry`,
  `getUpcomingGames`, `getLastResults`, `getAllGames`;
* `scraper.js` (Puppeteer, per-team JSON files) — `scrapePartidos`,
  `generarId`, `guardarPartidosPorEquipo`.

This file gives a shallow embedding of those scripts.  JavaScript strings are
modelled as Lean `String`; DOM traversal results (cheerio / `page.evaluate`
selections) are modelled as the lists of texts the selectors produce; the
current wall-clock time (`new Date()`) is an explicit parameter; file-system
and network effects are modelled as explicit data flowing in and out.
-/

/-! ## JavaScript string primitives -/

/-- Does the list start with the given pattern? -/
def empiezaCon : List Char → List Char → Bool
  | _, [] => true
  | [], _ :: _ => false
  | c :: cs, p :: ps => c == p && empiezaCon cs ps

/-- Split on a non-empty literal separator, leftmost and non-overlapping as
JS `split(string)`.  `fuel` is consumed one unit per step and starts at the
list length, which suffices because every step shortens the list; the
recursion is structural on `fuel` so that evaluation reduces in the
kernel. -/
def splitOnFuel (pat : List Char) : Nat → List Char → List Char → List (List Char)
  | 0, cur, _ => [cur.reverse]
  | _ + 1, cur, [] => [cur.reverse]
  | fuel + 1, cur, c :: cs =>
    if empiezaCon (c :: cs) pat then
      cur.reverse :: splitOnFuel pat fuel [] (List.drop pat.length (c :: cs))
    else splitOnFuel pat fuel (c :: cur) cs

/-- JS `s.split(sep)` for a non-empty string separator (the scrapers never
split on the empty string; that case is mapped to the whole string). -/
def jsSplitOn (s sep : String) : List String :=
  if sep = "" then [s]
  else (splitOnFuel sep.toList s.toList.length [] s.toList).map String.mk

/-- Split at every character satisfying the predicate (like
`String.split`, but structurally recursive). -/
def splitPredAux (p : Char → Bool) (cur : List Char) : List Char → List (List Char)
  | [] => [cur.reverse]
  | c :: cs =>
    if p c then cur.reverse :: splitPredAux p [] cs
    else splitPredAux p (c :: cur) cs

/-- String-level predicate split. -/
def splitPred (p : Char → Bool) (s : String) : List String :=
  (splitPredAux p [] s.toList).map String.mk

/-- JS `trim()`: strip leading and trailing whitespace. -/
def jsTrim (s : String) : String :=
  String.mk (((s.toList.dropWhile Char.isWhitespace).reverse.dropWhile
    Char.isWhitespace).reverse)

/-- JS `toUpperCase` on the character set these pages use: ASCII plus the
accented Spanish letters. -/
def jsToUpper (s : String) : String :=
  String.mk (s.toList.map (fun c =>
    match c with
    | 'á' => 'Á' | 'é' => 'É' | 'í' => 'Í' | 'ó' => 'Ó' | 'ú' => 'Ú'
    | 'ü' => 'Ü' | 'ñ' => 'Ñ'
    | c => c.toUpper))

/-- JS `String.prototype.includes` (substring containment). -/
def jsIncludes (s sub : String) : Bool :=
  if sub = "" then true else (jsSplitOn s sub).length ≥ 2

/-- Value of a digit character. -/
def valorDigito (c : Char) : Nat := c.toNat - '0'.toNat

/-- Numeric value of a list of decimal digit characters. -/
def digitosANat (l : List Char) : Nat :=
  l.foldl (fun acc c => 10 * acc + valorDigito c) 0

/-- Strict decimal parse: all characters must be digits, at least one. -/
def parseDigitos (s : String) : Option Nat :=
  if s ≠ "" ∧ s.toList.all Char.isDigit then some (digitosANat s.toList) else none

/-- JS `Number(string)` on the inputs this program feeds it (date/time
tokens): whitespace-trimmed; empty string is `0`; an optional sign followed
by decimal digits is that integer; anything else is `NaN`, modelled as
`none`.  (Decimal points, exponents and hex literals never occur in the
scraped tokens and are mapped to `none`.) -/
def jsNumber (s : String) : Option Int :=
  let t := jsTrim s
  if t = "" then some 0
  else if empiezaCon t.toList ['-'] then
    (parseDigitos (String.mk (t.toList.drop 1))).map (fun n => -(n : Int))
  else if empiezaCon t.toList ['+'] then
    (parseDigitos (String.mk (t.toList.drop 1))).map (fun n => (n : Int))
  else (parseDigitos t).map (fun n => (n : Int))

/-- JS `replace(/\s+/g, sep)`: collapse every maximal run of whitespace to a
single separator character.  `prevWs` records whether the previous character
was whitespace. -/
def colapsarEspacios (sep : Char) (prevWs : Bool) : List Char → List Char
  | [] => []
  | c :: cs =>
    if c.isWhitespace then
      (if prevWs then [] else [sep]) ++ colapsarEspacios sep true cs
    else c :: colapsarEspacios sep false cs

/-- JS `split(/\s+/)` on an already-trimmed string: the maximal runs of
non-whitespace characters. -/
def splitWs (s : String) : List String :=
  (splitPred Char.isWhitespace s).filter (fun t => t ≠ "")

/-- `normalize('NFD').replace(/[̀-ͯ]/g, '')` restricted to the
Spanish letters the federation pages contain: each accented Latin letter
decomposes into its base letter plus a combining mark, and the mark is
removed; every other character is unchanged. -/
def quitarDiacritico (c : Char) : Char :=
  match c with
  | 'á' => 'a' | 'é' => 'e' | 'í' => 'i' | 'ó' => 'o' | 'ú' => 'u'
  | 'ü' => 'u' | 'ñ' => 'n'
  | 'Á' => 'A' | 'É' => 'E' | 'Í' => 'I' | 'Ó' => 'O' | 'Ú' => 'U'
  | 'Ü' => 'U' | 'Ñ' => 'N'
  | c => c

/-- Accent stripping lifted to strings. -/
def quitarDiacriticos (s : String) : String := String.mk (s.toList.map quitarDiacritico)

/-- JS `toLowerCase` on the character set these pages use: ASCII plus the
accented Spanish letters (which JS lowercases and Lean's ASCII-only
`Char.toLower` would leave alone). -/
def jsToLower (s : String) : String :=
  String.mk (s.toList.map (fun c =>
    match c with
    | 'Á' => 'á' | 'É' => 'é' | 'Í' => 'í' | 'Ó' => 'ó' | 'Ú' => 'ú'
    | 'Ü' => 'ü' | 'Ñ' => 'ñ'
    | c => c.toLower))

/-- JS `replace(/undefined/g, '')`. -/
def quitarUndefined (s : String) : String := String.join (jsSplitOn s "undefined")

/-- Characters kept by `replace(/[^a-z0-9_]/g, '')`. -/
def permitidoGuionBajo (c : Char) : Bool :=
  ('a' ≤ c ∧ c ≤ 'z') ∨ c.isDigit ∨ c = '_'

/-- Characters kept by `replace(/[^a-z0-9-]/g, '')`. -/
def permitidoGuion (c : Char) : Bool :=
  ('a' ≤ c ∧ c ≤ 'z') ∨ c.isDigit ∨ c = '-'

/-- Pattern matching at the head of a character list: each predicate must
match the corresponding character. -/
def coincideEn : List Char → List (Char → Bool) → Bool
  | _, [] => true
  | [], _ :: _ => false
  | c :: cs, p :: ps => p c && coincideEn cs ps

/-- Unanchored regex `test`: the fixed-shape pattern occurs at some
position of the string. -/
def contienePatron (pats : List (Char → Bool)) : List Char → Bool
  | [] => coincideEn [] pats
  | l@(_ :: cs) => coincideEn l pats || contienePatron pats cs

/-- The shape of `/\d{2}\/\d{2}\/\d{4}/`. -/
def patFecha : List (Char → Bool) :=
  [Char.isDigit, Char.isDigit, (· == '/'), Char.isDigit, Char.isDigit,
   (· == '/'), Char.isDigit, Char.isDigit, Char.isDigit, Char.isDigit]

/-- `/\d{2}\/\d{2}\/\d{4}/.test s` (unanchored containment, as in the
source). -/
def testFechaPat (s : String) : Bool := contienePatron patFecha s.toList

/-- The shape of `/\d{2}:\d{2}/`. -/
def patHora : List (Char → Bool) :=
  [Char.isDigit, Char.isDigit, (· == ':'), Char.isDigit, Char.isDigit]

/-- `/\d{2}:\d{2}/.test s`. -/
def testHoraPat (s : String) : Bool := contienePatron patHora s.toList

/-! ## HTML helpers

cheerio `.text()` on a cell and the `replace(/<[^>]*>/g, '')` cleanups both
amount to dropping tag spans; `<br>`-splitting is used to separate the two
team names and the date from the time. -/

/-- Drop `<...>` tag spans, as `replace(/<[^>]*>/g, '')` does: a `<` with a
later `>` is removed together with everything between; a `<` with no
closing `>` does not match the regex and is kept. -/
def quitarEtiquetas : List Char → List Char
  | [] => []
  | '<' :: cs =>
    if cs.any (fun c => c = '>') then
      quitarEtiquetas ((cs.dropWhile (fun c => c ≠ '>')).drop 1)
    else '<' :: cs
  | c :: cs => c :: quitarEtiquetas cs
termination_by l => l.length
decreasing_by
  · have h1 : (List.dropWhile (fun c => decide (c ≠ '>')) cs).length ≤ cs.length :=
      (List.dropWhile_sublist _).length_le
    have h2 := List.length_drop 1 (List.dropWhile (fun c => decide (c ≠ '>')) cs)
    simp only [List.length_cons]
    omega
  · simp only [List.length_cons]
    omega

/-- `.text()` of a cell whose raw content is `s`. -/
def textoDe (s : String) : String := String.mk (quitarEtiquetas s.toList)

/-- Split on the line-break markers (the JS `split(/<br\s*\/?>/i)`): the
pages emit the markers `<br>`, `<br/>` and `<br />`, none of which occurs
inside another, so splitting on the three literal forms in turn is exact
for such inputs (other capitalisations or spacings of the marker are not
modelled). -/
def splitBr (s : String) : List String :=
  ((((jsSplitOn s "<br>").map (fun t => jsSplitOn t "<br/>")).flatten).map
    (fun t => jsSplitOn t "<br />")).flatten

/-! ## Calendar arithmetic

`new Date(year, monthIndex, day, hours, minutes)` (local time) is modelled
as a minute count on a proleptic Gregorian time line via the standard
civil-from-days conversion; month/day/hour overflow rolls over exactly as in
JS, and years 0–99 map to 1900–1999 as the `Date` constructor does.
Comparisons of two such dates agree with JS `Date` comparisons (time-zone
offset is a shared constant; DST irregularities are not modelled). -/

/-- Day number of the civil date `y-m-d` (Gregorian, `m` in 1..12),
counted from 1970-01-01. -/
def daysFromCivil (y m d : Int) : Int :=
  let y2 := if m ≤ 2 then y - 1 else y
  let era := Int.fdiv y2 400
  let yoe := y2 - era * 400
  let mp := if m > 2 then m - 3 else m + 9
  let doy := Int.fdiv (153 * mp + 2) 5 + d - 1
  let doe := yoe * 365 + Int.fdiv yoe 4 - Int.fdiv yoe 100 + doy
  era * 146097 + doe - 719468

/-- Minute count of JS `new Date(anio, mes, dia, horas, minutos)` (note:
`mes` is the 0-based month index, and values outside 0..11 roll the year
over, exactly as in JS). -/
def jsDateMinutes (anio mes dia horas minutos : Int) : Int :=
  let y0 := if 0 ≤ anio ∧ anio ≤ 99 then anio + 1900 else anio
  let y := y0 + Int.fdiv mes 12
  let m := Int.fmod mes 12
  (daysFromCivil y (m + 1) 1 + (dia - 1)) * 1440 + horas * 60 + minutos

/-! ## The TypeScript scraper (`src/scripts/scraper.ts`)

Its `Partido` interface, id derivation, state derivation, HTML row parsing,
change detection and persistence.  `cheerio`'s selection
`$('h4, table tbody tr')` is modelled as the list of selected elements in
document order. -/

/-- `estado: 'proximo' | 'en_curso' | 'finalizado'`. -/
inductive Estado where
  | proximo
  | en_curso
  | finalizado
deriving DecidableEq, Repr

/-- The `Partido` interface of the TypeScript scraper.  `resultadoLocal`,
`resultadoVisitante` and `hora` are optional fields (`undefined` is
`none`). -/
structure Partido where
  id : String
  categoria : String
  competicion : String
  equipoLocal : String
  equipoVisitante : String
  fecha : String
  hora : Option String
  pabellon : String
  resultadoLocal : Option Int
  resultadoVisitante : Option Int
  estado : Estado
  fechaActualizacion : String
deriving DecidableEq, Repr

/-- `generarIdPartido`: lowercase, strip accents, collapse whitespace to
underscores, drop every character outside `[a-z0-9_]`, applied to
`fecha_categoria_equipoLocal_equipoVisitante`. -/
def generarIdPartido (fecha categoria equipoLocal equipoVisitante : String) : String :=
  let base := fecha ++ "_" ++ categoria ++ "_" ++ equipoLocal ++ "_" ++ equipoVisitante
  let paso := quitarDiacriticos (jsToLower base)
  String.mk ((colapsarEspacios '_' false paso.toList).filter permitidoGuionBajo)

/-- JS truthiness of the `hora` argument (`undefined` and `''` are falsy). -/
def horaTruthy (hora : Option String) : Bool :=
  match hora with
  | none => false
  | some s => s ≠ ""

/-- The `new Date(anio, mes - 1, dia, horas || 0, minutos || 0)` built inside
`determinarEstado` from `fecha.split('/')` and `hora.split(':')`:
`none` models an Invalid Date (some component was `NaN`/`undefined`). -/
def fechaPartidoDe (fecha : String) (hora : Option String) : Option Int :=
  let fpartes := (jsSplitOn fecha "/").map jsNumber
  let hpartes := (jsSplitOn (hora.getD "") ":").map jsNumber
  let dia := (fpartes.get? 0).bind id
  let mes := (fpartes.get? 1).bind id
  let anio := (fpartes.get? 2).bind id
  let horas := ((hpartes.get? 0).bind id).getD 0
  let minutos := ((hpartes.get? 1).bind id).getD 0
  match anio, mes, dia with
  | some a, some m, some d => some (jsDateMinutes a (m - 1) d horas minutos)
  | _, _, _ => none

/-- `determinarEstado`: finished when both scores are present; otherwise
`proximo` when there is no time; otherwise `finalizado` exactly when the
scheduled date/time parses to a valid instant earlier than `ahora` (an
Invalid Date compares false and falls through to `proximo`). -/
def determinarEstado (fecha : String) (hora : Option String)
    (resultado : Option Int × Option Int) (ahora : Int) : Estado :=
  if resultado.1.isSome && resultado.2.isSome then Estado.finalizado
  else if !horaTruthy hora then Estado.proximo
  else
    match fechaPartidoDe fecha hora with
    | some t => if t < ahora then Estado.finalizado else Estado.proximo
    | none => Estado.proximo

/-- One attempt of `/(\d+)\s*-\s*(\d+)/` anchored at the head of the list:
a maximal digit run, optional whitespace, a dash, optional whitespace, a
second digit run. -/
def resultadoEn (l : List Char) : Option (Nat × Nat) :=
  let d1 := l.takeWhile Char.isDigit
  if d1 = [] then none
  else
    let r2 := (l.dropWhile Char.isDigit).dropWhile Char.isWhitespace
    match r2 with
    | '-' :: r3 =>
      let r4 := r3.dropWhile Char.isWhitespace
      let d2 := r4.takeWhile Char.isDigit
      if d2 = [] then none else some (digitosANat d1, digitosANat d2)
    | _ => none

/-- Leftmost match of `/(\d+)\s*-\s*(\d+)/` over the whole list. -/
def buscarResultado : List Char → Option (Nat × Nat)
  | [] => none
  | l@(_ :: cs) =>
    match resultadoEn l with
    | some r => some r
    | none => buscarResultado cs

/-- `extraerResultado`: first `"75-68"`-style pattern in the cell text,
parsed with `parseInt`; `{}` (no scores) when absent. -/
def extraerResultado (texto : String) : Option Int × Option Int :=
  match buscarResultado texto.toList with
  | some (a, b) => (some (a : Int), some (b : Int))
  | none => (none, none)

/-- JS `split(/\s{2,}/)`: split where a run of at least two whitespace
characters occurs.  `cur` is the reversed current token, `pend` the reversed
run of pending whitespace not yet committed to either side. -/
def splitDobleAux (cur pend : List Char) : List Char → List (List Char)
  | [] =>
    if pend.length ≥ 2 then [cur.reverse, []]
    else [(pend ++ cur).reverse]
  | c :: cs =>
    if c.isWhitespace then splitDobleAux cur (c :: pend) cs
    else if pend.length ≥ 2 then cur.reverse :: splitDobleAux [c] [] cs
    else splitDobleAux (c :: (pend ++ cur)) [] cs

/-- String-level `split(/\s{2,}/)`. -/
def splitDoble (s : String) : List String :=
  (splitDobleAux [] [] s.toList).map String.mk

/-- `determinarEquipos`: split the cell on double spaces; with two tokens
they are local and visitor; otherwise split on the literal `'ADESA 80'`;
otherwise fall back to `'Desconocido'`. -/
def determinarEquipos (textoEquipos : String) : String × String :=
  let equipos := ((splitDoble textoEquipos).map jsTrim).filter (fun e => e ≠ "")
  if equipos.length ≥ 2 then (equipos.getD 0 "", equipos.getD 1 "")
  else
    let partes := jsSplitOn textoEquipos "ADESA 80"
    if partes.length = 2 then
      let primerEquipo := jsTrim (partes.getD 0 "")
      let segundoEquipo := jsTrim (partes.getD 1 "")
      if primerEquipo ≠ "" then (primerEquipo, "ADESA 80")
      else ("ADESA 80", segundoEquipo)
    else
      (equipos.getD 0 "Desconocido", equipos.getD 1 "Desconocido")

/-- An element produced by the selection `$('h4, table tbody tr')`: a
competition header with its text, or a table row with the text of its `td`
cells. -/
inductive Elem where
  | h4 (texto : String)
  | tr (celdas : List String)
deriving DecidableEq, Repr

/-- The row-acceptance part of the `tr` branch of `parsearPartidos`: at
least 3 cells, non-empty category / teams / date-time texts, and a
`DD/MM/YYYY` shape somewhere in the first date-time token.  Returns the
extracted `(categoria, textoEquipos, fecha, hora, pabellon)`; the fourth
component is `partesFechaHora[1]`, which may be `undefined` (`none`). -/
def parseRowDatos (celdas : List String) :
    Option (String × String × String × Option String × String) :=
  if celdas.length < 3 then none
  else
    let categoria := jsTrim (celdas.getD 0 "")
    let textoEquipos := jsTrim (celdas.getD 1 "")
    let textoFechaHora := jsTrim (celdas.getD 2 "")
    let pabellon :=
      match celdas.get? 3 with
      | some s => if jsTrim s = "" then "Por determinar" else jsTrim s
      | none => "Por determinar"
    if categoria = "" ∨ textoEquipos = "" ∨ textoFechaHora = "" then none
    else
      let partes := splitWs textoFechaHora
      let fecha := partes.getD 0 ""
      let horaTok := partes.get? 1
      if !testFechaPat fecha then none
      else some (categoria, textoEquipos, fecha, horaTok, pabellon)

/-- The full `tr` branch of `parsearPartidos`: build the `Partido` record
(id derived from its own fields, state from `determinarEstado`).  `ahora`
is the run time for the date comparison, `nowIso` the
`new Date().toISOString()` stamp. -/
def parseRow (ahora : Int) (nowIso competicion : String) (celdas : List String) :
    Option Partido :=
  match parseRowDatos celdas with
  | none => none
  | some (categoria, textoEquipos, fecha, horaTok, pabellon) =>
    let equiposLV := determinarEquipos textoEquipos
    let res := extraerResultado textoEquipos
    some
      { id := generarIdPartido fecha categoria equiposLV.1 equiposLV.2
        categoria := categoria
        competicion := competicion
        equipoLocal := equiposLV.1
        equipoVisitante := equiposLV.2
        fecha := fecha
        hora :=
          match horaTok with
          | some h => if testHoraPat h then some h else none
          | none => none
        pabellon := pabellon
        resultadoLocal := res.1
        resultadoVisitante := res.2
        estado := determinarEstado fecha horaTok res ahora
        fechaActualizacion := nowIso }

/-- The single pass of `parsearPartidos` over the selected elements:
an `h4` updates `competicionActual`, a `tr` may contribute a record. -/
def parsearGo (ahora : Int) (nowIso : String) : String → List Elem → List Partido
  | _, [] => []
  | _, Elem.h4 texto :: rest => parsearGo ahora nowIso (jsTrim texto) rest
  | compAct, Elem.tr celdas :: rest =>
    match parseRow ahora nowIso compAct celdas with
    | some p => p :: parsearGo ahora nowIso compAct rest
    | none => parsearGo ahora nowIso compAct rest

/-- `parsearPartidos` with the initial empty competition name. -/
def parsearPartidos (ahora : Int) (nowIso : String) (elems : List Elem) : List Partido :=
  parsearGo ahora nowIso "" elems

/-- Does a row contribute a record?  (Acceptance does not depend on the
current competition nor on the clock, only on the cells.) -/
def emiteFila (celdas : List String) : Bool := (parseRowDatos celdas).isSome

/-- Element-level emission predicate: headers emit nothing. -/
def emiteElem : Elem → Bool
  | Elem.h4 _ => false
  | Elem.tr celdas => emiteFila celdas

/-- Lookup in `new Map(partidosNuevos.map(p => [p.id, p]))`: later entries
with the same key overwrite earlier ones, so the lookup returns the last
record with the given id. -/
def mapaGet (ps : List Partido) (clave : String) : Option Partido :=
  ps.reverse.find? (fun p => p.id == clave)

/-- `hanCambiado`: different lengths, a missing id, or a difference in
state / time / either score for some old record. -/
def hanCambiado (partidosNuevos partidosAntiguos : List Partido) : Bool :=
  if partidosNuevos.length ≠ partidosAntiguos.length then true
  else
    partidosAntiguos.any (fun partidoAntiguo =>
      match mapaGet partidosNuevos partidoAntiguo.id with
      | none => true
      | some partidoNuevo =>
        partidoNuevo.estado != partidoAntiguo.estado ||
        partidoNuevo.hora != partidoAntiguo.hora ||
        partidoNuevo.resultadoLocal != partidoAntiguo.resultadoLocal ||
        partidoNuevo.resultadoVisitante != partidoAntiguo.resultadoVisitante)

/-- The JSON document `guardarPartidos` writes. -/
structure PartidosData where
  ultima_actualizacion : String
  total_partidos : Nat
  partidos : List Partido
deriving DecidableEq, Repr

/-- `guardarPartidos` (the value serialised to `partidos.json`). -/
def guardarPartidos (ahoraIso : String) (partidos : List Partido) : PartidosData :=
  { ultima_actualizacion := ahoraIso
    total_partidos := partidos.length
    partidos := partidos }

/-- `cargarPartidosExistentes` reading back a written document
(`data.partidos || []`). -/
def cargarPartidosExistentes (data : PartidosData) : List Partido :=
  data.partidos

/-- Observable outcome of one run of `main` after the fetch and parse:
the snapshot collection on disk afterwards, the process exit code, and
whether the run reported "no hay cambios". -/
structure ResultadoRun where
  partidos : List Partido
  exitCode : Nat
  sinCambios : Bool
deriving DecidableEq, Repr

/-- Steps 3–4 of `main`: an empty parse exits 1 leaving the file untouched;
an unchanged non-empty collection exits 0 without writing; otherwise
`guardarPartidos(partidosNuevos)` replaces the whole file with the new
batch. -/
def mergeRun (partidosNuevos partidosAntiguos : List Partido) : ResultadoRun :=
  if partidosNuevos.length = 0 then
    { partidos := partidosAntiguos, exitCode := 1, sinCambios := false }
  else if hanCambiado partidosNuevos partidosAntiguos = false ∧
      partidosAntiguos.length > 0 then
    { partidos := partidosAntiguos, exitCode := 0, sinCambios := true }
  else
    { partidos := partidosNuevos, exitCode := 0, sinCambios := false }

/-! ## Fetch models

A fetch attempt is driven by oracles giving the outcome of the i-th plain
HTTP request and of the i-th Puppeteer (rendering) fetch; the model records
which method each attempt used. -/

/-- Which fetch path an attempt used. -/
inductive Metodo where
  | plainFetch
  | puppeteerFetch
deriving DecidableEq, Repr

/-- Outcome of one plain `fetch` call: a 2xx body, a non-ok HTTP status, or
a network/timeout error. -/
inductive PlainResult where
  | ok (body : String)
  | httpStatus (code : Nat)
  | netErr (msg : String)
deriving DecidableEq, Repr

/-- Final outcome of a fetcher. -/
inductive FResult where
  | success (body : String)
  | failure
deriving DecidableEq, Repr

/-- A fetcher run: its result and the method of each attempt, in order. -/
structure FetchTrace where
  result : FResult
  metodos : List Metodo
deriving DecidableEq, Repr

/-- The retry loop of `fetchConTimeout` (`src/scripts/scraper.ts`).
`rem` counts the remaining loop iterations (`retries + 1` in total),
`usoPuppeteer` the flag set on an HTTP 403.  After the loop, one last
Puppeteer attempt runs only if the flag was never set. -/
def fctGo (plain : Nat → PlainResult) (pup : Nat → Option String) :
    Nat → Nat → Bool → FetchTrace
  | intento, 0, usoPuppeteer =>
    if usoPuppeteer then { result := FResult.failure, metodos := [] }
    else
      match pup intento with
      | some body => { result := FResult.success body, metodos := [Metodo.puppeteerFetch] }
      | none => { result := FResult.failure, metodos := [Metodo.puppeteerFetch] }
  | intento, rem + 1, usoPuppeteer =>
    if usoPuppeteer then
      match pup intento with
      | some body => { result := FResult.success body, metodos := [Metodo.puppeteerFetch] }
      | none =>
        let r := fctGo plain pup (intento + 1) rem true
        { result := r.result, metodos := Metodo.puppeteerFetch :: r.metodos }
    else
      match plain intento with
      | PlainResult.ok body =>
        { result := FResult.success body, metodos := [Metodo.plainFetch] }
      | PlainResult.httpStatus code =>
        let r := fctGo plain pup (intento + 1) rem (code = 403)
        { result := r.result, metodos := Metodo.plainFetch :: r.metodos }
      | PlainResult.netErr _ =>
        let r := fctGo plain pup (intento + 1) rem false
        { result := r.result, metodos := Metodo.plainFetch :: r.metodos }

/-- `fetchConTimeout(url, timeout, retries)`. -/
def fetchConTimeout (retries : Nat) (plain : Nat → PlainResult)
    (pup : Nat → Option String) : FetchTrace :=
  fctGo plain pup 0 (retries + 1) false

/-- Outcome of one `axios.get` with `validateStatus: s => s < 500`: a
resolved response with its status, or a rejection (network error, timeout,
or a status of 500 and above). -/
inductive AxiosResult where
  | res (status : Nat) (body : String)
  | thrown (msg : String)
deriving DecidableEq, Repr

/-- The attempt loop of `fetchWithRetry` (`src/lib/scraper.js`).  `fuel` is
the number of attempts still allowed (initially `maxRetries`); a thrown
error is re-thrown on the last attempt and otherwise retried; 403 always
falls through to the next attempt; only a 200 returns.  Every attempt is a
plain axios request — this variant has no rendering path at all. -/
def fwrGo (oracle : Nat → AxiosResult) : Nat → Nat → FResult × List Metodo
  | _, 0 => (FResult.failure, [])
  | attempt, fuel + 1 =>
    match oracle attempt with
    | AxiosResult.res status body =>
      if status = 403 then
        let r := fwrGo oracle (attempt + 1) fuel
        (r.1, Metodo.plainFetch :: r.2)
      else if status = 404 then
        if fuel = 0 then (FResult.failure, [Metodo.plainFetch])
        else
          let r := fwrGo oracle (attempt + 1) fuel
          (r.1, Metodo.plainFetch :: r.2)
      else if status ≥ 500 then
        if fuel = 0 then (FResult.failure, [Metodo.plainFetch])
        else
          let r := fwrGo oracle (attempt + 1) fuel
          (r.1, Metodo.plainFetch :: r.2)
      else if status = 200 then (FResult.success body, [Metodo.plainFetch])
      else
        let r := fwrGo oracle (attempt + 1) fuel
        (r.1, Metodo.plainFetch :: r.2)
    | AxiosResult.thrown _ =>
      if fuel = 0 then (FResult.failure, [Metodo.plainFetch])
      else
        let r := fwrGo oracle (attempt + 1) fuel
        (r.1, Metodo.plainFetch :: r.2)

/-- `fetchWithRetry(url, maxRetries)`: result plus the method trace. -/
def fetchWithRetry (maxRetries : Nat) (oracle : Nat → AxiosResult) : FetchTrace :=
  let r := fwrGo oracle 1 maxRetries
  { result := r.1, metodos := r.2 }

/-! ## The library scraper (`src/lib/scraper.js`)

`getUpcomingGames`, `getLastResults` and `getAllGames` share the pattern:
fetch, walk selected containers and rows, filter to club rows, deduplicate
with a `Set` of composite keys, and return `[]` from the surrounding
`catch` on any error. -/

/-- The club filter of `getAllGames`:
`local.toUpperCase().includes('ADESA') || visitante.toUpperCase().includes('ADESA')`. -/
def filtroGetAllGames (localTeam visitanteTeam : String) : Bool :=
  jsIncludes (jsToUpper localTeam) "ADESA" || jsIncludes (jsToUpper visitanteTeam) "ADESA"

/-- The club filter of `getUpcomingGames` (and of the push condition of
`getLastResults`): same case-insensitive `'ADESA'` containment. -/
def filtroGetUpcoming (localName visitorName : String) : Bool :=
  jsIncludes (jsToUpper localName) "ADESA" || jsIncludes (jsToUpper visitorName) "ADESA"

/-- The club filter of `scrapePartidos` (`scraper.js`, per-team variant):
`localText.includes('ADESA 80') || visitanteText.includes('ADESA 80')`,
with no case folding. -/
def filtroScrapePartidos (localText visitanteText : String) : Bool :=
  jsIncludes localText "ADESA 80" || jsIncludes visitanteText "ADESA 80"

/-- A game emitted by `getAllGames`. -/
structure GameAll where
  categoria : String
  localTeam : String
  visitanteTeam : String
  marcadorLocal : Option String
  marcadorVisitante : Option String
  fecha : String
  hora : String
  pabellon : String
  isAdesaLocal : Bool
deriving DecidableEq, Repr

/-- The composite key `` `${categoryText}-${local}-${visitante}-${fecha}` ``
of `getAllGames`, computed from the fields the pushed object carries. -/
def claveAll (g : GameAll) : String :=
  g.categoria ++ "-" ++ g.localTeam ++ "-" ++ g.visitanteTeam ++ "-" ++ g.fecha

/-- The per-row extraction of `getAllGames` before the duplicate check:
at least 5 cells, the club filter, positional scores (empty becomes
`null`), date/time from the `<br>`-split of cell 4, venue from cell 5. -/
def rowToGameAll (categoryText : String) (cells : List String) : Option GameAll :=
  if cells.length < 5 then none
  else
    let localTeam := jsTrim (textoDe (cells.getD 0 ""))
    let visitanteTeam := jsTrim (textoDe (cells.getD 3 ""))
    if !filtroGetAllGames localTeam visitanteTeam then none
    else
      let marcadorLocal := jsTrim (textoDe (cells.getD 1 ""))
      let marcadorVisitante := jsTrim (textoDe (cells.getD 2 ""))
      let fechaHoraParts :=
        ((splitBr (cells.getD 4 "")).map (fun p => jsTrim (textoDe p))).filter
          (fun p => p ≠ "")
      let fecha := fechaHoraParts.getD 0 ""
      let hora := fechaHoraParts.getD 1 ""
      let pabellon :=
        match cells.get? 5 with
        | some s => jsTrim (textoDe s)
        | none => ""
      some
        { categoria := categoryText
          localTeam := localTeam
          visitanteTeam := visitanteTeam
          marcadorLocal := if marcadorLocal = "" then none else some marcadorLocal
          marcadorVisitante := if marcadorVisitante = "" then none else some marcadorVisitante
          fecha := fecha
          hora := hora
          pabellon := pabellon
          isAdesaLocal := jsIncludes (jsToUpper localTeam) "ADESA" }

/-- The row loop of `getAllGames` inside one category: the `Set` of seen
keys (`seen`) is threaded through; a row whose key is already seen is
skipped, otherwise its key is added and the game pushed. -/
def allGamesFilas (categoryText : String) (seen : List String) :
    List (List String) → List GameAll × List String
  | [] => ([], seen)
  | cells :: rest =>
    match rowToGameAll categoryText cells with
    | none => allGamesFilas categoryText seen rest
    | some g =>
      if seen.contains (claveAll g) then allGamesFilas categoryText seen rest
      else
        let r := allGamesFilas categoryText (claveAll g :: seen) rest
        (g :: r.1, r.2)

/-- The header loop of `getAllGames`: one entry per
`header.pestana-subdesplegable h4`, carrying the header text and the rows
of the tables that follow it (an empty header text skips the section; a
section without tables simply has no rows). -/
def allGamesSecciones (seen : List String) :
    List (String × List (List String)) → List GameAll
  | [] => []
  | (texto, rows) :: rest =>
    let categoryText := jsTrim (textoDe texto)
    if categoryText = "" then allGamesSecciones seen rest
    else
      let r := allGamesFilas categoryText seen rows
      r.1 ++ allGamesSecciones r.2 rest

/-- `getAllGames` after a successful fetch. -/
def getAllGamesExtract (page : List (String × List (List String))) : List GameAll :=
  allGamesSecciones [] page

/-- `getAllGames` including the outer `try`/`catch`: a failed fetch (or any
thrown error) yields `[]`. -/
def getAllGamesRun (fetched : Except String (List (String × List (List String)))) :
    List GameAll :=
  match fetched with
  | Except.error _ => []
  | Except.ok page => getAllGamesExtract page

/-- A game emitted by `getUpcomingGames`. -/
structure UpGame where
  categoria : String
  localName : String
  visitorName : String
  fecha : String
  campo : String
  isAdesaLocal : Bool
deriving DecidableEq, Repr

/-- The per-row extraction of `getUpcomingGames` (rows with at least 4
cells): category is the first `<br`-separated line of cell 0, teams are the
`<br>`-split of cell 1, date and venue are cells 2 and 3. -/
def rowToUpGame (cells : List String) : Option UpGame :=
  if cells.length ≥ 4 then
    let categoryText := jsTrim ((jsSplitOn (cells.getD 0 "") "<br").getD 0 "")
    let teamParts :=
      ((splitBr (cells.getD 1 "")).map (fun p => jsTrim (textoDe p))).filter
        (fun p => p ≠ "")
    let localName := teamParts.getD 0 "N/A"
    let visitorName := teamParts.getD 1 "N/A"
    let fecha := jsTrim (textoDe (cells.getD 2 ""))
    let campo := jsTrim (textoDe (cells.getD 3 ""))
    some
      { categoria := categoryText
        localName := localName
        visitorName := visitorName
        fecha := fecha
        campo := campo
        isAdesaLocal := jsIncludes (jsToUpper localName) "ADESA" }
  else none

/-- The row loop of `getUpcomingGames`: push only when the key is unseen
and a team mentions the club; the key is added only when pushing. -/
def upGamesFilas (seen : List String) : List (List String) → List UpGame × List String
  | [] => ([], seen)
  | cells :: rest =>
    match rowToUpGame cells with
    | none => upGamesFilas seen rest
    | some g =>
      let clave := g.fecha ++ "-" ++ g.localName ++ "-" ++ g.visitorName
      if !seen.contains clave && filtroGetUpcoming g.localName g.visitorName then
        let r := upGamesFilas (clave :: seen) rest
        (g :: r.1, r.2)
      else upGamesFilas seen rest

/-- The container loop of `getUpcomingGames` over the
`div[id^="capa_proximos"]` containers. -/
def upGamesContenedores (seen : List String) : List (List (List String)) → List UpGame
  | [] => []
  | rows :: rest =>
    let r := upGamesFilas seen rows
    r.1 ++ upGamesContenedores r.2 rest

/-- `getUpcomingGames` after a successful fetch. -/
def getUpcomingGamesExtract (page : List (List (List String))) : List UpGame :=
  upGamesContenedores [] page

/-- `getUpcomingGames` including the outer `try`/`catch`. -/
def getUpcomingGamesRun (fetched : Except String (List (List (List String)))) :
    List UpGame :=
  match fetched with
  | Except.error _ => []
  | Except.ok page => getUpcomingGamesExtract page

/-- A result emitted by `getLastResults`. -/
structure ResGame where
  fecha : String
  localName : String
  localPoints : String
  visitorName : String
  visitorPoints : String
  isAdesaWinner : Bool
  isAdesaLocal : Bool
deriving DecidableEq, Repr

/-- A `tr.fila_color_tabla` row of a results table: its cell texts and
whether each points cell carries the `ganador` class. -/
structure FilaRes where
  cells : List String
  localGanador : Bool
  visitorGanador : Bool
deriving DecidableEq, Repr

/-- The row loop of `getLastResults`: rows with at least 5 cells and both
points non-empty; the key is added to the `Set` as soon as it is unseen,
even when the club filter then rejects the row (as in the source). -/
def resFilas (seen : List String) : List FilaRes → List ResGame × List String
  | [] => ([], seen)
  | fila :: rest =>
    let cells := fila.cells
    if cells.length ≥ 5 then
      let fecha := jsTrim (textoDe (cells.getD 0 ""))
      let localPoints := jsTrim (textoDe (cells.getD 1 ""))
      let localName := jsTrim (textoDe (cells.getD 2 ""))
      let visitorName := jsTrim (textoDe (cells.getD 3 ""))
      let visitorPoints := jsTrim (textoDe (cells.getD 4 ""))
      if localPoints ≠ "" ∧ visitorPoints ≠ "" then
        let clave := fecha ++ "-" ++ localName ++ "-" ++ visitorName
        if !seen.contains clave then
          let isAdesaLocal := jsIncludes (jsToUpper localName) "ADESA"
          let isAdesaWinner :=
            if isAdesaLocal then fila.localGanador else fila.visitorGanador
          if isAdesaLocal || jsIncludes (jsToUpper visitorName) "ADESA" then
            let r := resFilas (clave :: seen) rest
            ({ fecha := fecha, localName := localName, localPoints := localPoints
               visitorName := visitorName, visitorPoints := visitorPoints
               isAdesaWinner := isAdesaWinner, isAdesaLocal := isAdesaLocal } :: r.1,
             r.2)
          else resFilas (clave :: seen) rest
        else resFilas seen rest
      else resFilas seen rest
    else resFilas seen rest

/-- The container loop of `getLastResults` (the nested
`capa_competicion_` / `capa_` levels concatenate their first tables' rows,
modelled as one list of row groups). -/
def resContenedores (seen : List String) : List (List FilaRes) → List ResGame
  | [] => []
  | rows :: rest =>
    let r := resFilas seen rows
    r.1 ++ resContenedores r.2 rest

/-- `getLastResults` after a successful fetch. -/
def getLastResultsExtract (page : List (List FilaRes)) : List ResGame :=
  resContenedores [] page

/-- `getLastResults` including the outer `try`/`catch`. -/
def getLastResultsRun (fetched : Except String (List (List FilaRes))) : List ResGame :=
  match fetched with
  | Except.error _ => []
  | Except.ok page => getLastResultsExtract page

/-! ## The deduplicator

The seen-`Set` pattern shared by the library scraper's functions, as one
standalone function, plus the specification-side "keep the first occurrence
of each key" function it is compared with. -/

/-- The seen-`Set` loop with an initial set of seen keys. -/
def dedupGoS {α : Type} (clave : α → String) (seen : List String) :
    List α → List α × List String
  | [] => ([], seen)
  | x :: xs =>
    if seen.contains (clave x) then dedupGoS clave seen xs
    else
      let r := dedupGoS clave (clave x :: seen) xs
      (x :: r.1, r.2)

/-- The deduplicator: drop every row whose composite key was already seen
earlier in the sequence. -/
def dedupPorClave {α : Type} (clave : α → String) (l : List α) : List α :=
  (dedupGoS clave [] l).1

/-- Specification-side description (from the spec's words): keep each
row's first occurrence and delete all later rows with the same key. -/
def mantienePrimeras {α : Type} (clave : α → String) (l : List α) : List α :=
  match l with
  | [] => []
  | x :: xs =>
    x :: mantienePrimeras clave (xs.filter (fun y => !(clave y == clave x)))
termination_by l.length
decreasing_by
  have := List.length_filter_le (fun y => !(clave y == clave x)) xs
  simp only [List.length_cons]
  omega

/-! ## The per-team scraper (`scraper.js`) -/

/-- A match object pushed by `scrapePartidos` (the `page.evaluate`
extraction): scores are strings or `null`, `es_resultado` marks both
present; `id` is assigned later by `guardarPartidosPorEquipo`. -/
structure PartidoEquipo where
  categoria : String
  competicion : String
  equipo : String
  rival : String
  ubicacion : String
  marcador_local : Option String
  marcador_visitante : Option String
  fecha : String
  hora : String
  pabellon : String
  es_resultado : Bool
  id : String
deriving DecidableEq, Repr

/-- `parseFecha` + `Date` subtraction operand: the minute count of
`new Date(anio, mes - 1, dia)`, or `none` for an Invalid Date. -/
def parseFechaMin (fechaStr : String) : Option Int :=
  fechaPartidoDe fechaStr none

/-- `normalizarNombreEquipo`: lowercase, strip accents, whitespace to
dashes, keep only `[a-z0-9-]`. -/
def normalizarNombreEquipo (equipo : String) : String :=
  let paso := quitarDiacriticos (jsToLower equipo)
  String.mk ((colapsarEspacios '-' false paso.toList).filter permitidoGuion)

/-- `generarId` of the per-team scraper: `fecha_local_visitante_categoria`,
whitespace to underscores, accents stripped, lowercased, the literal text
`undefined` removed. -/
def generarId (partido : PartidoEquipo) : String :=
  let localT := if partido.ubicacion = "Local" then "adesa_80" else partido.rival
  let visitanteT := if partido.ubicacion = "Visitante" then "adesa_80" else partido.rival
  let s := partido.fecha ++ "_" ++ localT ++ "_" ++ visitanteT ++ "_" ++ partido.categoria
  quitarUndefined (jsToLower (quitarDiacriticos (String.mk (colapsarEspacios '_' false s.toList))))

/-- The per-record mutation inside `guardarPartidosPorEquipo`: assign the
regenerated id, and for a `DESCANSA` (bye) rival null both scores and clear
`es_resultado`. -/
def procesarPartido (partido : PartidoEquipo) : PartidoEquipo :=
  let p1 := { partido with id := generarId partido }
  if p1.rival = "DESCANSA" then
    { p1 with marcador_local := none, marcador_visitante := none, es_resultado := false }
  else p1

/-- Append a processed match to its team's group, keeping object-key
insertion order as JS does. -/
def agregarAGrupo (grupos : List (String × List PartidoEquipo)) (nombre : String)
    (p : PartidoEquipo) : List (String × List PartidoEquipo) :=
  match grupos with
  | [] => [(nombre, [p])]
  | (n, l) :: rest =>
    if n = nombre then (n, l ++ [p]) :: rest
    else (n, l) :: agregarAGrupo rest nombre p

/-- The grouping loop of `guardarPartidosPorEquipo`
(`partido.equipo || 'sin-equipo'` is the group key). -/
def agruparPartidos (partidos : List PartidoEquipo) :
    List (String × List PartidoEquipo) :=
  partidos.foldl
    (fun grupos partido =>
      let nombreEquipo := if partido.equipo = "" then "sin-equipo" else partido.equipo
      agregarAGrupo grupos nombreEquipo (procesarPartido partido))
    []

/-- The sort comparator `fechaB - fechaA` (newest first); an unparsable
date on either side compares as equal, as the `catch { return 0 }` and the
`NaN` comparator value both do. -/
def compararFechas (a b : PartidoEquipo) : Int :=
  match parseFechaMin a.fecha, parseFechaMin b.fecha with
  | some ta, some tb => tb - ta
  | _, _ => 0

/-- Insert into an already-sorted list (descending by date). -/
def insertarPorFecha (p : PartidoEquipo) : List PartidoEquipo → List PartidoEquipo
  | [] => [p]
  | q :: rest =>
    if compararFechas p q < 0 then p :: q :: rest
    else q :: insertarPorFecha p rest

/-- The `partidosEquipo.sort(...)` call, modelled as an insertion sort with
the same comparator (the engine's sort may place rows with equal comparator
value differently; no claim depends on the order). -/
def ordenarPorFecha : List PartidoEquipo → List PartidoEquipo
  | [] => []
  | p :: rest => insertarPorFecha p (ordenarPorFecha rest)

/-- `guardarPartidosPorEquipo`: the family of files written, as pairs of
file name (normalised team name plus `.json`) and sorted match list. -/
def guardarPartidosPorEquipo (partidos : List PartidoEquipo) :
    List (String × List PartidoEquipo) :=
  (agruparPartidos partidos).map
    (fun g => (normalizarNombreEquipo g.1 ++ ".json", ordenarPorFecha g.2))

/-! ## Lemmas about the deduplicator -/

theorem mantienePrimeras_nil {α : Type} (clave : α → String) :
    mantienePrimeras clave ([] : List α) = [] := by
  rw [mantienePrimeras.eq_def]

theorem mantienePrimeras_cons {α : Type} (clave : α → String) (x : α) (xs : List α) :
    mantienePrimeras clave (x :: xs) =
      x :: mantienePrimeras clave (xs.filter (fun y => !(clave y == clave x))) := by
  rw [mantienePrimeras.eq_def]

theorem dedupGoS_fst_eq {α : Type} (clave : α → String) :
    ∀ (l : List α) (seen : List String),
      (dedupGoS clave seen l).1 =
        mantienePrimeras clave (l.filter (fun x => !seen.contains (clave x))) := by
  intro l
  induction l with
  | nil => intro seen; simp only [dedupGoS, List.filter_nil, mantienePrimeras_nil]
  | cons x xs ih =>
    intro seen
    cases hx : seen.contains (clave x) with
    | true =>
      rw [List.filter_cons_of_neg (by rw [hx]; simp)]
      simp only [dedupGoS, if_pos hx]
      exact ih seen
    | false =>
      rw [List.filter_cons_of_pos (by rw [hx]; simp)]
      simp only [dedupGoS, if_neg (by rw [hx]; simp : ¬seen.contains (clave x) = true)]
      rw [mantienePrimeras_cons, ih (clave x :: seen), List.filter_filter]
      congr 1
      apply congrArg
      apply List.filter_congr
      intro y _
      simp only [List.contains_cons, Bool.not_or]

theorem mem_of_mem_mantienePrimeras {α : Type} (clave : α → String) (l : List α) :
    ∀ y, y ∈ mantienePrimeras clave l → y ∈ l := by
  induction l using mantienePrimeras.induct clave with
  | case1 => simp [mantienePrimeras_nil]
  | case2 x xs ih =>
    intro y hy
    rw [mantienePrimeras_cons] at hy
    rcases List.mem_cons.mp hy with h | h
    · exact h ▸ List.mem_cons_self _ _
    · exact List.mem_cons_of_mem _ (List.mem_of_mem_filter (ih y h))

theorem pairwise_mantienePrimeras {α : Type} (clave : α → String) (l : List α) :
    (mantienePrimeras clave l).Pairwise (fun a b => clave a ≠ clave b) := by
  induction l using mantienePrimeras.induct clave with
  | case1 => rw [mantienePrimeras_nil]; exact List.Pairwise.nil
  | case2 x xs ih =>
    rw [mantienePrimeras_cons]
    refine List.Pairwise.cons ?_ ih
    intro b hb
    have hbf := mem_of_mem_mantienePrimeras clave _ b hb
    have := List.of_mem_filter hbf
    simp only [Bool.not_eq_true', beq_eq_false_iff_ne, ne_eq] at this
    exact fun h => this h.symm

theorem mantienePrimeras_eq_self {α : Type} (clave : α → String) :
    ∀ (l : List α), l.Pairwise (fun a b => clave a ≠ clave b) →
      mantienePrimeras clave l = l := by
  intro l
  induction l with
  | nil => intro _; exact mantienePrimeras_nil clave
  | cons x xs ih =>
    intro hp
    rw [mantienePrimeras_cons]
    have hf : xs.filter (fun y => !(clave y == clave x)) = xs := by
      apply List.filter_eq_self.mpr
      intro a ha
      simp only [Bool.not_eq_true', beq_eq_false_iff_ne, ne_eq]
      exact fun h => (List.rel_of_pairwise_cons hp ha) h.symm
    rw [hf, ih (List.Pairwise.sublist (List.sublist_cons_self x xs) hp)]

theorem mantienePrimeras_idem {α : Type} (clave : α → String) (l : List α) :
    mantienePrimeras clave (mantienePrimeras clave l) = mantienePrimeras clave l :=
  mantienePrimeras_eq_self clave _ (pairwise_mantienePrimeras clave l)

theorem dedupPorClave_eq_mantienePrimeras {α : Type} (clave : α → String) (l : List α) :
    dedupPorClave clave l = mantienePrimeras clave l := by
  unfold dedupPorClave
  rw [dedupGoS_fst_eq]
  congr 1
  apply List.filter_eq_self.mpr
  intro a _
  rfl

theorem dedupGoS_append {α : Type} (clave : α → String) :
    ∀ (a b : List α) (seen : List String),
      dedupGoS clave seen (a ++ b) =
        ((dedupGoS clave seen a).1 ++ (dedupGoS clave (dedupGoS clave seen a).2 b).1,
         (dedupGoS clave (dedupGoS clave seen a).2 b).2) := by
  intro a
  induction a with
  | nil => intro b seen; simp [dedupGoS]
  | cons x xs ih =>
    intro b seen
    cases hx : seen.contains (clave x) with
    | true => simp only [List.cons_append, dedupGoS, if_pos hx]; exact ih b seen
    | false =>
      have hx2 : ¬seen.contains (clave x) = true := by rw [hx]; simp
      simp only [List.cons_append, dedupGoS, if_neg hx2, List.append_eq]
      rw [ih b (clave x :: seen)]

/-- `getAllGames` without the duplicate check: every extracted game of
every non-empty-header section, in order. -/
def allGamesRaw (page : List (String × List (List String))) : List GameAll :=
  (page.map (fun sec =>
    let categoryText := jsTrim (textoDe sec.1)
    if categoryText = "" then [] else sec.2.filterMap (rowToGameAll categoryText))).flatten

theorem allGamesFilas_eq (categoryText : String) :
    ∀ (rows : List (List String)) (seen : List String),
      allGamesFilas categoryText seen rows =
        dedupGoS claveAll seen (rows.filterMap (rowToGameAll categoryText)) := by
  intro rows
  induction rows with
  | nil => intro seen; simp [allGamesFilas, dedupGoS]
  | cons cells rest ih =>
    intro seen
    cases hr : rowToGameAll categoryText cells with
    | none => simp only [allGamesFilas, hr, List.filterMap_cons_none hr]; exact ih seen
    | some g =>
      simp only [allGamesFilas, hr, List.filterMap_cons_some hr]
      cases hx : seen.contains (claveAll g) with
      | true => simp only [dedupGoS, if_pos hx]; exact ih seen
      | false =>
        have hx2 : ¬seen.contains (claveAll g) = true := by rw [hx]; simp
        simp only [dedupGoS, if_neg hx2]
        rw [ih (claveAll g :: seen)]
        simp

theorem allGamesSecciones_eq :
    ∀ (page : List (String × List (List String))) (seen : List String),
      allGamesSecciones seen page = (dedupGoS claveAll seen (allGamesRaw page)).1 := by
  intro page
  induction page with
  | nil => intro seen; simp [allGamesSecciones, allGamesRaw, dedupGoS]
  | cons sec rest ih =>
    intro seen
    obtain ⟨texto, rows⟩ := sec
    by_cases hc : jsTrim (textoDe texto) = ""
    · simp only [allGamesSecciones, if_pos hc, allGamesRaw, List.map_cons,
        List.flatten_cons, if_pos hc, List.nil_append]
      exact ih seen
    · simp only [allGamesSecciones, if_neg hc, allGamesRaw, List.map_cons,
        List.flatten_cons, if_neg hc]
      rw [allGamesFilas_eq, dedupGoS_append]
      have := ih ((dedupGoS claveAll seen (rows.filterMap (rowToGameAll (jsTrim (textoDe texto))))).2)
      simp only [allGamesRaw] at this
      rw [this]

/-- C6: the deduplicator keeps exactly the first occurrence of each
composite key and drops every later row with an already-seen key (it equals
the keep-first-occurrence function), it is idempotent, and the interleaved
seen-`Set` loop of `getAllGames` is exactly this deduplicator (with the
category + home + away + date key) applied to the undeduplicated row
sequence. -/
theorem c6_deduplicador_primera_ocurrencia_idempotente :
    (∀ {α : Type} (clave : α → String) (l : List α),
        dedupPorClave clave l = mantienePrimeras clave l ∧
        dedupPorClave clave (dedupPorClave clave l) = dedupPorClave clave l) ∧
    (∀ page, getAllGamesExtract page = dedupPorClave claveAll (allGamesRaw page)) := by
  constructor
  · intro α clave l
    constructor
    · exact dedupPorClave_eq_mantienePrimeras clave l
    · simp [dedupPorClave_eq_mantienePrimeras, mantienePrimeras_idem]
  · intro page
    unfold getAllGamesExtract dedupPorClave
    exact allGamesSecciones_eq page []

/-- C9: the library scraper's public functions never propagate an error —
any fetch failure (exhausted retries, thrown parse error) is caught and
yields `[]` — and an empty result is also what a successful scrape with no
matching rows returns, so the two are indistinguishable to a caller. -/
theorem c9_funciones_publicas_devuelven_lista :
    (∀ e, getUpcomingGamesRun (Except.error e) = []) ∧
    (∀ e, getLastResultsRun (Except.error e) = []) ∧
    (∀ e, getAllGamesRun (Except.error e) = []) ∧
    getUpcomingGamesRun (Except.ok []) = [] ∧
    getLastResultsRun (Except.ok []) = [] ∧
    getAllGamesRun (Except.ok []) = [] := by
  refine ⟨fun e => rfl, fun e => rfl, fun e => rfl, rfl, rfl, rfl⟩

/-! ## Lemmas about the parser of `src/scripts/scraper.ts` -/

theorem parseRowDatos_corta {celdas : List String} (h : celdas.length < 3) :
    parseRowDatos celdas = none := by
  unfold parseRowDatos
  rw [if_pos h]

theorem parseRow_isSome_eq (ahora : Int) (nowIso competicion : String)
    (celdas : List String) :
    (parseRow ahora nowIso competicion celdas).isSome = emiteFila celdas := by
  unfold parseRow emiteFila
  cases parseRowDatos celdas with
  | none => rfl
  | some d =>
    obtain ⟨categoria, textoEquipos, fecha, horaTok, pabellon⟩ := d
    rfl

theorem parsearGo_length (ahora : Int) (nowIso : String) :
    ∀ (elems : List Elem) (comp : String),
      (parsearGo ahora nowIso comp elems).length = elems.countP emiteElem := by
  intro elems
  induction elems with
  | nil => intro comp; simp [parsearGo]
  | cons e rest ih =>
    intro comp
    cases e with
    | h4 texto =>
      simp only [parsearGo]
      rw [ih (jsTrim texto), List.countP_cons]
      simp [emiteElem]
    | tr celdas =>
      simp only [parsearGo]
      rw [List.countP_cons]
      cases hp : parseRow ahora nowIso comp celdas with
      | none =>
        have hf : emiteElem (Elem.tr celdas) = false := by
          have h2 := parseRow_isSome_eq ahora nowIso comp celdas
          rw [hp] at h2
          simpa [emiteElem] using h2.symm
        rw [ih comp, hf]
        simp
      | some p =>
        have hf : emiteElem (Elem.tr celdas) = true := by
          have h2 := parseRow_isSome_eq ahora nowIso comp celdas
          rw [hp] at h2
          simpa [emiteElem] using h2.symm
        simp [List.length_cons, ih comp, hf]

theorem parsearGo_salta_fila_corta (ahora : Int) (nowIso : String) {celdas : List String}
    (h : celdas.length < 3) :
    ∀ (xs ys : List Elem) (comp : String),
      parsearGo ahora nowIso comp (xs ++ Elem.tr celdas :: ys) =
        parsearGo ahora nowIso comp (xs ++ ys) := by
  intro xs
  induction xs with
  | nil =>
    intro ys comp
    have hn : parseRow ahora nowIso comp celdas = none := by
      unfold parseRow
      rw [parseRowDatos_corta h]
    simp only [List.nil_append, parsearGo, hn]
  | cons e rest ih =>
    intro ys comp
    cases e with
    | h4 texto =>
      simp only [List.cons_append, parsearGo]
      exact ih ys (jsTrim texto)
    | tr c2 =>
      simp only [List.cons_append, parsearGo]
      cases hp : parseRow ahora nowIso comp c2 <;>
        simp only [List.append_eq, ih ys comp]

/-- C5: parsing is row-isolated.  A row with fewer than the minimum column
count (3 in the source) is skipped without affecting any other row's
contribution, and the parser emits exactly one record per accepted row, so
an input whose only malformed row is the short one yields exactly the
count of the remaining accepted rows. -/
theorem c5_parser_aisla_filas (ahora : Int) (nowIso : String) (xs ys : List Elem)
    (celdas : List String) (h : celdas.length < 3) :
    parsearPartidos ahora nowIso (xs ++ Elem.tr celdas :: ys) =
      parsearPartidos ahora nowIso (xs ++ ys) ∧
    (parsearPartidos ahora nowIso (xs ++ Elem.tr celdas :: ys)).length =
      (xs ++ ys).countP emiteElem ∧
    (∀ elems, (parsearPartidos ahora nowIso elems).length = elems.countP emiteElem) := by
  refine ⟨parsearGo_salta_fila_corta ahora nowIso h xs ys "", ?_, ?_⟩
  · unfold parsearPartidos
    rw [parsearGo_salta_fila_corta ahora nowIso h xs ys ""]
    exact parsearGo_length ahora nowIso (xs ++ ys) ""
  · intro elems
    exact parsearGo_length ahora nowIso elems ""

/-- The run instant used by the concrete evaluations: 2026-10-11 12:00. -/
def ahoraOct2026 : Int := jsDateMinutes 2026 9 11 12 0

/-- A well-formed row of the federation table. -/
def filaBuena : List String :=
  ["Cadete Masculino", "ADESA 80  ISAVAL CBA", "14/02/2026 18:30", "PDVO. MUNICIPAL"]

/-- Witness for C5: a malformed 2-cell row between two good rows is
skipped; the parse of three rows (one malformed) has exactly 2 records. -/
theorem c5_testigo :
    (["a", "b"] : List String).length < 3 ∧
    parsearPartidos ahoraOct2026 "iso"
        [Elem.h4 "Copa", Elem.tr filaBuena, Elem.tr ["a", "b"], Elem.tr filaBuena] =
      parsearPartidos ahoraOct2026 "iso"
        [Elem.h4 "Copa", Elem.tr filaBuena, Elem.tr filaBuena] ∧
    (parsearPartidos ahoraOct2026 "iso"
        [Elem.h4 "Copa", Elem.tr filaBuena, Elem.tr ["a", "b"], Elem.tr filaBuena]).length = 2 := by
  have h := c5_parser_aisla_filas ahoraOct2026 "iso" [Elem.h4 "Copa", Elem.tr filaBuena]
    [Elem.tr filaBuena] ["a", "b"] (by decide)
  simp only [List.cons_append, List.nil_append] at h
  refine ⟨by decide, h.1, ?_⟩
  rw [h.2.1]
  decide

/-! ## C1: derived match state -/

/-- C1 counterexample: a row lacking both scores, with a time, whose
scheduled date (2020-01-01 18:00) is in the past relative to the run time
(2026-10-11 12:00), gets state `finalizado` — not `proximo` or `en_curso`
— so "status is finished iff both scores are present" fails right to
left. -/
theorem c1_contraejemplo :
    determinarEstado "01/01/2020" (some "18:00")
        ((none : Option Int), (none : Option Int)) ahoraOct2026 = Estado.finalizado ∧
    Estado.finalizado ≠ Estado.proximo ∧ Estado.finalizado ≠ Estado.en_curso := by
  decide

/-- C1 amended: the state is `finalizado` iff both scores are present, or
a (truthy) time is present and the schedule parses to a valid instant
strictly before the run time; in every other case it is `proximo`; the
state `en_curso` is never produced. -/
theorem c1_estado_caracterizacion (fecha : String) (hora : Option String)
    (res : Option Int × Option Int) (ahora : Int) :
    determinarEstado fecha hora res ahora ≠ Estado.en_curso ∧
    (determinarEstado fecha hora res ahora = Estado.finalizado ↔
      (res.1.isSome = true ∧ res.2.isSome = true) ∨
      (horaTruthy hora = true ∧
        ∃ t, fechaPartidoDe fecha hora = some t ∧ t < ahora)) := by
  unfold determinarEstado
  by_cases h1 : (res.1.isSome && res.2.isSome) = true
  · rw [if_pos h1]
    rw [Bool.and_eq_true] at h1
    simp [h1]
  · rw [if_neg h1]
    rw [Bool.and_eq_true] at h1
    by_cases h2 : (!horaTruthy hora) = true
    · rw [if_pos h2]
      rw [Bool.not_eq_true'] at h2
      constructor
      · intro hcontra; exact Estado.noConfusion hcontra
      · simp [h1, h2]
    · rw [if_neg h2]
      rw [Bool.not_eq_true', Bool.not_eq_false] at h2
      refine ⟨?_, ?_⟩
      · split
        · split
          · intro hc; exact Estado.noConfusion hc
          · intro hc; exact Estado.noConfusion hc
        · intro hc; exact Estado.noConfusion hc
      · split
        next t hf =>
          by_cases h3 : t < ahora
          · rw [if_pos h3]
            constructor
            · intro _; exact Or.inr ⟨h2, t, hf, h3⟩
            · intro _; rfl
          · rw [if_neg h3]
            constructor
            · intro hc; exact Estado.noConfusion hc
            · rintro (⟨ha, hb⟩ | ⟨_, t2, ht2, hlt⟩)
              · exact absurd ⟨ha, hb⟩ h1
              · rw [hf] at ht2
                injection ht2 with he
                exact absurd hlt (he ▸ h3)
        next hf =>
          constructor
          · intro hc; exact Estado.noConfusion hc
          · rintro (⟨ha, hb⟩ | ⟨_, t2, ht2, _⟩)
            · exact absurd ⟨ha, hb⟩ h1
            · rw [hf] at ht2
              exact Option.noConfusion ht2

/-! ## C4: fetch escalation on HTTP 403 -/

theorem fctGo_puppeteer_only (plain : Nat → PlainResult) (pup : Nat → Option String) :
    ∀ (rem intento : Nat),
      ∀ m ∈ (fctGo plain pup intento rem true).metodos, m = Metodo.puppeteerFetch := by
  intro rem
  induction rem with
  | zero =>
    intro intento m hm
    simp only [fctGo, if_pos] at hm
    exact absurd hm (List.not_mem_nil m)
  | succ rem ih =>
    intro intento m hm
    simp only [fctGo, if_pos] at hm
    cases hp : pup intento with
    | some body => rw [hp] at hm; simp at hm; exact hm
    | none =>
      rw [hp] at hm
      simp only [List.mem_cons] at hm
      rcases hm with hm | hm
      · exact hm
      · exact ih (intento + 1) m hm

theorem fwrGo_plain_only (oracle : Nat → AxiosResult) :
    ∀ (fuel attempt : Nat), ∀ m ∈ (fwrGo oracle attempt fuel).2, m = Metodo.plainFetch := by
  intro fuel
  induction fuel with
  | zero =>
    intro attempt m hm
    exact absurd hm (List.not_mem_nil m)
  | succ fuel ih =>
    intro attempt m hm
    unfold fwrGo at hm
    cases ho : oracle attempt with
    | res status body =>
      rw [ho] at hm
      by_cases h403 : status = 403
      · simp only [if_pos h403, List.mem_cons] at hm
        rcases hm with hm | hm
        · exact hm
        · exact ih (attempt + 1) m hm
      · simp only [if_neg h403] at hm
        by_cases h404 : status = 404
        · simp only [if_pos h404] at hm
          by_cases hf : fuel = 0
          · simp only [if_pos hf, List.mem_singleton] at hm; exact hm
          · simp only [if_neg hf, List.mem_cons] at hm
            rcases hm with hm | hm
            · exact hm
            · exact ih (attempt + 1) m hm
        · simp only [if_neg h404] at hm
          by_cases h500 : status ≥ 500
          · simp only [if_pos h500] at hm
            by_cases hf : fuel = 0
            · simp only [if_pos hf, List.mem_singleton] at hm; exact hm
            · simp only [if_neg hf, List.mem_cons] at hm
              rcases hm with hm | hm
              · exact hm
              · exact ih (attempt + 1) m hm
          · simp only [if_neg h500] at hm
            by_cases h200 : status = 200
            · simp only [if_pos h200, List.mem_singleton] at hm; exact hm
            · simp only [if_neg h200, List.mem_cons] at hm
              rcases hm with hm | hm
              · exact hm
              · exact ih (attempt + 1) m hm
    | thrown msg =>
      rw [ho] at hm
      by_cases hf : fuel = 0
      · simp only [if_pos hf, List.mem_singleton] at hm; exact hm
      · simp only [if_neg hf, List.mem_cons] at hm
        rcases hm with hm | hm
        · exact hm
        · exact ih (attempt + 1) m hm

/-- C4 counterexample: `fetchWithRetry` receiving HTTP 403 on every attempt
performs three identical plain requests and fails; it never uses a
rendering-capable fetch, contradicting "every fetcher variant escalates on
403". -/
theorem c4_contraejemplo :
    fetchWithRetry 3 (fun _ => AxiosResult.res 403 "denegado") =
      { result := FResult.failure,
        metodos := [Metodo.plainFetch, Metodo.plainFetch, Metodo.plainFetch] } ∧
    Metodo.plainFetch ≠ Metodo.puppeteerFetch := by
  decide

/-- C4 amended: only the TypeScript variant escalates — after a 403 on the
first `fetchConTimeout` attempt, every later attempt uses the Puppeteer
rendering path; the library variant `fetchWithRetry` has no rendering path
and every one of its attempts is a plain request. -/
theorem c4_escalada_403 (retries : Nat) (plain : Nat → PlainResult)
    (pup : Nat → Option String) (h : plain 0 = PlainResult.httpStatus 403) :
    (fetchConTimeout retries plain pup).metodos.head? = some Metodo.plainFetch ∧
    (∀ m ∈ (fetchConTimeout retries plain pup).metodos.tail,
      m = Metodo.puppeteerFetch) ∧
    (∀ (maxRetries : Nat) (oracle : Nat → AxiosResult),
      ∀ m ∈ (fetchWithRetry maxRetries oracle).metodos, m = Metodo.plainFetch) := by
  have hstep : fetchConTimeout retries plain pup =
      { result := (fctGo plain pup 1 retries true).result,
        metodos := Metodo.plainFetch :: (fctGo plain pup 1 retries true).metodos } := by
    unfold fetchConTimeout
    simp [fctGo, h]
  rw [hstep]
  refine ⟨rfl, ?_, ?_⟩
  · intro m hm
    exact fctGo_puppeteer_only plain pup retries 1 m hm
  · intro maxRetries oracle m hm
    exact fwrGo_plain_only oracle maxRetries 1 m hm

/-- The plain-fetch oracle answering 403 always. -/
def plain403 : Nat → PlainResult := fun _ => PlainResult.httpStatus 403

/-- The Puppeteer oracle answering with a rendered page. -/
def pupOk : Nat → Option String := fun _ => some "<html>pagina</html>"

/-- Witness for C4 (amended): with a 403 on the first attempt and one
retry, the first attempt is plain and all later attempts are Puppeteer. -/
theorem c4_testigo :
    (fetchConTimeout 1 plain403 pupOk).metodos.head? = some Metodo.plainFetch ∧
    (∀ m ∈ (fetchConTimeout 1 plain403 pupOk).metodos.tail,
      m = Metodo.puppeteerFetch) :=
  ⟨(c4_escalada_403 1 plain403 pupOk rfl).1, (c4_escalada_403 1 plain403 pupOk rfl).2.1⟩

/-! ## C2 / C3 / C7: what a run does to the persisted collection -/

/-- A record persisted by an earlier run. -/
def partidoViejo : Partido :=
  { id := "01092026_senior_masculino_adesa_80_cb_gades"
    categoria := "Senior Masculino"
    competicion := "Liga Provincial"
    equipoLocal := "ADESA 80"
    equipoVisitante := "CB GADES"
    fecha := "01/09/2026"
    hora := some "19:00"
    pabellon := "PDVO. MUNICIPAL"
    resultadoLocal := some 70
    resultadoVisitante := some 65
    estado := Estado.finalizado
    fechaActualizacion := "2026-09-01T20:00:00.000Z" }

/-- A record scraped by the next run (a different match). -/
def partidoNuevoLote : Partido :=
  { id := "14022026_cadete_masculino_adesa_80_isaval_cba"
    categoria := "Cadete Masculino"
    competicion := "Copa"
    equipoLocal := "ADESA 80"
    equipoVisitante := "ISAVAL CBA"
    fecha := "14/02/2026"
    hora := some "18:30"
    pabellon := "PDVO. MUNICIPAL"
    resultadoLocal := none
    resultadoVisitante := none
    estado := Estado.proximo
    fechaActualizacion := "2026-10-11T12:00:00.000Z" }

/-- C2: the run has no merge — when changes are detected it writes the new
batch wholesale, so a stored record absent from the batch is deleted.
Evaluated at the failing input: old snapshot `[partidoViejo]`, new batch
`[partidoNuevoLote]`. -/
theorem c2_lote_reemplaza_coleccion :
    mergeRun [partidoNuevoLote] [partidoViejo] =
      { partidos := [partidoNuevoLote], exitCode := 0, sinCambios := false } ∧
    partidoViejo ∉ (mergeRun [partidoNuevoLote] [partidoViejo]).partidos ∧
    partidoViejo.id ∉ ((mergeRun [partidoNuevoLote] [partidoViejo]).partidos.map Partido.id) := by
  decide

/-- A stored record whose id was produced by an older derivation. -/
def partidoLegado : Partido :=
  { id := "id_legado_v1"
    categoria := "Cadete Masculino"
    competicion := "Copa"
    equipoLocal := "ADESA 80"
    equipoVisitante := "ISAVAL CBA"
    fecha := "14/02/2026"
    hora := some "18:30"
    pabellon := "PDVO. MUNICIPAL"
    resultadoLocal := none
    resultadoVisitante := none
    estado := Estado.proximo
    fechaActualizacion := "2026-10-01T12:00:00.000Z" }

/-- The same match re-scraped: identical date, teams and category, id
freshly derived by `generarIdPartido`. -/
def partidoNuevoMismo : Partido :=
  { id := generarIdPartido "14/02/2026" "Cadete Masculino" "ADESA 80" "ISAVAL CBA"
    categoria := "Cadete Masculino"
    competicion := "Copa"
    equipoLocal := "ADESA 80"
    equipoVisitante := "ISAVAL CBA"
    fecha := "14/02/2026"
    hora := some "18:30"
    pabellon := "PDVO. MUNICIPAL"
    resultadoLocal := some 61
    resultadoVisitante := some 55
    estado := Estado.finalizado
    fechaActualizacion := "2026-10-11T12:00:00.000Z" }

/-- C3 counterexample: the new batch contains a row with date, teams and
category identical to the stored record, yet after the run no record
carries the stored id `"id_legado_v1"` — the run regenerates ids instead
of preserving the stored one. -/
theorem c3_contraejemplo :
    partidoNuevoMismo.fecha = partidoLegado.fecha ∧
    partidoNuevoMismo.categoria = partidoLegado.categoria ∧
    partidoNuevoMismo.equipoLocal = partidoLegado.equipoLocal ∧
    partidoNuevoMismo.equipoVisitante = partidoLegado.equipoVisitante ∧
    (mergeRun [partidoNuevoMismo] [partidoLegado]).partidos = [partidoNuevoMismo] ∧
    partidoNuevoMismo.id ≠ partidoLegado.id ∧
    ((mergeRun [partidoNuevoMismo] [partidoLegado]).partidos.all
      (fun p => p.id != partidoLegado.id)) = true := by
  decide

theorem parseRow_id {ahora : Int} {nowIso comp : String} {celdas : List String}
    {p : Partido} (hp : parseRow ahora nowIso comp celdas = some p) :
    p.id = generarIdPartido p.fecha p.categoria p.equipoLocal p.equipoVisitante := by
  unfold parseRow at hp
  cases hd : parseRowDatos celdas with
  | none => rw [hd] at hp; exact Option.noConfusion hp
  | some d =>
    obtain ⟨categoria, textoEquipos, fecha, horaTok, pabellon⟩ := d
    rw [hd] at hp
    injection hp with he
    subst he
    rfl

theorem parsearGo_id (ahora : Int) (nowIso : String) :
    ∀ (elems : List Elem) (comp : String),
      ∀ p ∈ parsearGo ahora nowIso comp elems,
        p.id = generarIdPartido p.fecha p.categoria p.equipoLocal p.equipoVisitante := by
  intro elems
  induction elems with
  | nil => intro comp p hp; exact absurd hp (List.not_mem_nil p)
  | cons e rest ih =>
    intro comp p hp
    cases e with
    | h4 texto => exact ih (jsTrim texto) p hp
    | tr celdas =>
      simp only [parsearGo] at hp
      cases hr : parseRow ahora nowIso comp celdas with
      | none => rw [hr] at hp; exact ih comp p hp
      | some q =>
        rw [hr] at hp
        rcases List.mem_cons.mp hp with h | h
        · exact h ▸ parseRow_id hr
        · exact ih comp p h

/-- C3 amended: the run never reads stored ids — when it writes, the
collection becomes exactly the new batch, each of whose records carries an
id freshly derived from its own date, category and teams by
`generarIdPartido`; a stored id therefore survives only when it equals
that fresh derivation. -/
theorem c3_ids_regenerados (partidosNuevos partidosAntiguos : List Partido)
    (hne : partidosNuevos ≠ [])
    (hch : hanCambiado partidosNuevos partidosAntiguos = true) :
    (mergeRun partidosNuevos partidosAntiguos).partidos = partidosNuevos ∧
    (∀ (ahora : Int) (nowIso : String) (elems : List Elem),
      ∀ p ∈ parsearPartidos ahora nowIso elems,
        p.id = generarIdPartido p.fecha p.categoria p.equipoLocal p.equipoVisitante) := by
  constructor
  · unfold mergeRun
    rw [if_neg (by simp [hne]), if_neg (by simp [hch])]
  · intro ahora nowIso elems p hp
    exact parsearGo_id ahora nowIso elems "" p hp

/-- Witness for C3 (amended): the run with the legacy record and the
re-scraped batch writes exactly the batch. -/
theorem c3_testigo :
    (mergeRun [partidoNuevoMismo] [partidoLegado]).partidos = [partidoNuevoMismo] :=
  (c3_ids_regenerados [partidoNuevoMismo] [partidoLegado] (by decide) (by decide)).1

theorem find?_id_self :
    ∀ (l : List Partido), (l.map Partido.id).Nodup →
      ∀ pa ∈ l, l.find? (fun p => p.id == pa.id) = some pa := by
  intro l
  induction l with
  | nil => intro _ pa hpa; exact absurd hpa (List.not_mem_nil pa)
  | cons b t ih =>
    intro hnd pa hpa
    rw [List.map_cons, List.nodup_cons] at hnd
    rcases List.mem_cons.mp hpa with h | h
    · subst h
      rw [List.find?_cons_of_pos _ (by simp)]
    · have hfalse : (b.id == pa.id) = false := by
        simp only [beq_eq_false_iff_ne, ne_eq]
        intro he
        exact hnd.1 (he ▸ List.mem_map_of_mem Partido.id h)
      rw [List.find?_cons]
      simp only [hfalse]
      exact ih hnd.2 pa h

theorem mapaGet_self (c : List Partido) (hnd : (c.map Partido.id).Nodup) :
    ∀ pa ∈ c, mapaGet c pa.id = some pa := by
  intro pa hpa
  unfold mapaGet
  apply find?_id_self
  · rw [List.map_reverse]
    exact List.nodup_reverse.mpr hnd
  · exact List.mem_reverse.mpr hpa

theorem hanCambiado_self (c : List Partido) (hnd : (c.map Partido.id).Nodup) :
    hanCambiado c c = false := by
  unfold hanCambiado
  rw [if_neg (by simp)]
  apply List.any_eq_false.mpr
  intro pa hpa
  rw [mapaGet_self c hnd pa hpa]
  simp

/-- C7 counterexample: re-merging an empty new batch does not report
"no changes" and succeed — `main` exits with failure code 1 before even
comparing (the snapshot is left untouched). -/
theorem c7_contraejemplo :
    mergeRun [] [partidoViejo] =
      { partidos := [partidoViejo], exitCode := 1, sinCambios := false } ∧
    (1 : Nat) ≠ 0 := by
  decide

/-- C7 amended: persist-then-reload returns the collection unchanged, and
re-merging a batch equal to the (non-empty, duplicate-free) collection
itself reports "no changes" and exits 0 leaving it unchanged; but
re-merging an empty batch terminates with failure exit code 1. -/
theorem c7_ida_y_vuelta (ahoraIso : String) (c : List Partido) (hne : c ≠ [])
    (hnd : (c.map Partido.id).Nodup) :
    cargarPartidosExistentes (guardarPartidos ahoraIso c) = c ∧
    mergeRun c c = { partidos := c, exitCode := 0, sinCambios := true } ∧
    mergeRun [] c = { partidos := c, exitCode := 1, sinCambios := false } := by
  refine ⟨rfl, ?_, rfl⟩
  unfold mergeRun
  rw [if_neg (by simp [hne])]
  rw [if_pos ⟨hanCambiado_self c hnd, by cases c with
    | nil => exact absurd rfl hne
    | cons x xs => simp⟩]

/-- Witness for C7 (amended) at the one-record collection. -/
theorem c7_testigo :
    cargarPartidosExistentes (guardarPartidos "2026-10-11T12:00:00.000Z" [partidoViejo]) =
      [partidoViejo] ∧
    mergeRun [partidoViejo] [partidoViejo] =
      { partidos := [partidoViejo], exitCode := 0, sinCambios := true } :=
  ⟨(c7_ida_y_vuelta "2026-10-11T12:00:00.000Z" [partidoViejo] (by decide) (by decide)).1,
   (c7_ida_y_vuelta "2026-10-11T12:00:00.000Z" [partidoViejo] (by decide) (by decide)).2.1⟩

/-! ## C8: club filter across the scraper variants -/

/-- C8 counterexample: a row whose home team mentions the club as
`"Adesa 80"` (different letter case) is retained by the library variants
but dropped by `scrapePartidos`, whose filter compares the literal
`'ADESA 80'` case-sensitively — so "retained case-insensitively in every
scraper variant" fails. -/
theorem c8_contraejemplo :
    filtroScrapePartidos "Adesa 80" "CB RIVAL" = false ∧
    filtroGetAllGames "Adesa 80" "CB RIVAL" = true ∧
    filtroGetUpcoming "Adesa 80" "CB RIVAL" = true ∧
    jsIncludes (jsToUpper "Adesa 80") "ADESA 80" = true := by
  decide

/-- C8 amended: the library variants (`getUpcomingGames`, `getLastResults`,
`getAllGames`) share one case-insensitive filter — its value is unchanged
under any change of letter case of either team name — while the per-team
variant `scrapePartidos` matches the literal `'ADESA 80'` with no case
folding. -/
theorem c8_filtro_variantes (l v l2 v2 : String)
    (hl : jsToUpper l = jsToUpper l2) (hv : jsToUpper v = jsToUpper v2) :
    filtroGetAllGames l v = filtroGetAllGames l2 v2 ∧
    filtroGetUpcoming l v = filtroGetUpcoming l2 v2 ∧
    (∀ a b, filtroGetAllGames a b = filtroGetUpcoming a b) := by
  refine ⟨?_, ?_, fun a b => rfl⟩
  · unfold filtroGetAllGames
    rw [hl, hv]
  · unfold filtroGetUpcoming
    rw [hl, hv]

/-- Witness for C8 (amended): changing the case of both team names leaves
the library filter's verdict unchanged. -/
theorem c8_testigo :
    jsToUpper "Adesa 80" = jsToUpper "ADESA 80" ∧
    filtroGetAllGames "Adesa 80" "CB Rival" = filtroGetAllGames "ADESA 80" "CB RIVAL" :=
  ⟨by decide,
   (c8_filtro_variantes "Adesa 80" "CB Rival" "ADESA 80" "CB RIVAL"
     (by decide) (by decide)).1⟩

/-! ## C10: bye (`DESCANSA`) rows are never persisted with scores -/

theorem procesarPartido_descansa (q : PartidoEquipo) :
    (procesarPartido q).rival = "DESCANSA" →
    (procesarPartido q).marcador_local = none ∧
    (procesarPartido q).marcador_visitante = none ∧
    (procesarPartido q).es_resultado = false := by
  by_cases hq : q.rival = "DESCANSA"
  · intro _
    simp [procesarPartido, hq]
  · intro h
    simp [procesarPartido, hq] at h

/-- Every match in every group has null scores and a cleared result flag
whenever its rival is `DESCANSA`. -/
def grupoOk (grupos : List (String × List PartidoEquipo)) : Prop :=
  ∀ par ∈ grupos, ∀ p ∈ par.2, p.rival = "DESCANSA" →
    p.marcador_local = none ∧ p.marcador_visitante = none ∧ p.es_resultado = false

theorem agregarAGrupo_ok (nombre : String) (q : PartidoEquipo)
    (hq : q.rival = "DESCANSA" →
      q.marcador_local = none ∧ q.marcador_visitante = none ∧ q.es_resultado = false) :
    ∀ (grupos : List (String × List PartidoEquipo)), grupoOk grupos →
      grupoOk (agregarAGrupo grupos nombre q) := by
  intro grupos
  induction grupos with
  | nil =>
    intro _ par hpar p hp hr
    simp only [agregarAGrupo, List.mem_singleton] at hpar
    subst hpar
    rcases List.mem_singleton.mp hp with h
    exact h ▸ hq (h ▸ hr)
  | cons g rest ih =>
    intro hg
    obtain ⟨n, l⟩ := g
    unfold agregarAGrupo
    split
    · next heq =>
      intro par hpar p hp hr
      rcases List.mem_cons.mp hpar with h | h
      · subst h
        rcases List.mem_append.mp hp with h2 | h2
        · exact hg (n, l) (List.mem_cons_self _ _) p h2 hr
        · rcases List.mem_singleton.mp h2 with h3
          exact h3 ▸ hq (h3 ▸ hr)
      · exact hg par (List.mem_cons_of_mem _ h) p hp hr
    · next hne =>
      intro par hpar p hp hr
      rcases List.mem_cons.mp hpar with h | h
      · subst h
        exact hg (n, l) (List.mem_cons_self _ _) p hp hr
      · have hrest : grupoOk rest := fun par2 hpar2 =>
          hg par2 (List.mem_cons_of_mem _ hpar2)
        exact ih hrest par h p hp hr

theorem agruparPartidos_ok (partidos : List PartidoEquipo) :
    grupoOk (agruparPartidos partidos) := by
  unfold agruparPartidos
  have hgen :
      ∀ (ps : List PartidoEquipo) (grupos : List (String × List PartidoEquipo)),
        grupoOk grupos →
        grupoOk (ps.foldl (fun grupos partido =>
          let nombreEquipo :=
            if partido.equipo = "" then "sin-equipo" else partido.equipo
          agregarAGrupo grupos nombreEquipo (procesarPartido partido)) grupos) := by
    intro ps
    induction ps with
    | nil => intro g h; exact h
    | cons q rest ih =>
      intro g h
      simp only [List.foldl_cons]
      exact ih _ (agregarAGrupo_ok _ _ (procesarPartido_descansa q) g h)
  exact hgen partidos [] (fun par hpar => absurd hpar (List.not_mem_nil par))

theorem mem_insertarPorFecha (p q : PartidoEquipo) :
    ∀ l, q ∈ insertarPorFecha p l ↔ q ∈ p :: l := by
  intro l
  induction l with
  | nil => simp [insertarPorFecha]
  | cons x xs ih =>
    unfold insertarPorFecha
    split
    · exact Iff.rfl
    · simp only [List.mem_cons] at ih ⊢
      rw [ih]
      constructor
      · rintro (h | h | h)
        · exact Or.inr (Or.inl h)
        · exact Or.inl h
        · exact Or.inr (Or.inr h)
      · rintro (h | h | h)
        · exact Or.inr (Or.inl h)
        · exact Or.inl h
        · exact Or.inr (Or.inr h)

theorem mem_ordenarPorFecha (q : PartidoEquipo) :
    ∀ l, q ∈ ordenarPorFecha l ↔ q ∈ l := by
  intro l
  induction l with
  | nil => exact Iff.rfl
  | cons p rest ih =>
    unfold ordenarPorFecha
    rw [mem_insertarPorFecha]
    simp only [List.mem_cons, ih]

/-- C10: every match written by `guardarPartidosPorEquipo` whose rival is
`DESCANSA` has both scores forced to `null` and `es_resultado` cleared —
a bye row is never persisted as a finished match with scores. -/
theorem c10_descansa_sin_marcadores (partidos : List PartidoEquipo)
    (nombreArchivo : String) (lst : List PartidoEquipo) (p : PartidoEquipo)
    (hfile : (nombreArchivo, lst) ∈ guardarPartidosPorEquipo partidos)
    (hp : p ∈ lst) (hr : p.rival = "DESCANSA") :
    p.marcador_local = none ∧ p.marcador_visitante = none ∧
    p.es_resultado = false := by
  unfold guardarPartidosPorEquipo at hfile
  rcases List.mem_map.mp hfile with ⟨g, hg, heq⟩
  have hlst : ordenarPorFecha g.2 = lst := congrArg Prod.snd heq
  have hpg : p ∈ g.2 := (mem_ordenarPorFecha p g.2).mp (hlst ▸ hp)
  exact agruparPartidos_ok partidos g hg p hpg hr

/-- A scraped bye row (`rival = DESCANSA`) that arrived with spurious
scores and `es_resultado = true`. -/
def partidoDescanso : PartidoEquipo :=
  { categoria := "Cadete Masculino"
    competicion := "Copa"
    equipo := "Cadete"
    rival := "DESCANSA"
    ubicacion := "Local"
    marcador_local := some "10"
    marcador_visitante := some "0"
    fecha := "14/02/2026"
    hora := ""
    pabellon := ""
    es_resultado := true
    id := "" }

/-- Witness for C10: the persisted form of the bye row has null scores. -/
theorem c10_testigo :
    (procesarPartido partidoDescanso).marcador_local = none ∧
    (procesarPartido partidoDescanso).marcador_visitante = none ∧
    (procesarPartido partidoDescanso).es_resultado = false :=
  c10_descansa_sin_marcadores [partidoDescanso] "cadete.json"
    [procesarPartido partidoDescanso] (procesarPartido partidoDescanso)
    (by decide) (by decide) (by decide)
